import Mathlib

/-!
Verification of the `did:key` construction/resolution core of
`bsv-blockchain/identity-services` (`src/backend/src/DIDService.ts`),
a shallow embedding in Lean 4.

Bytes are modelled as `Nat` (values `< 256` where it matters) and byte
arrays as `List Nat`; strings are Lean `String`s, manipulated through
their underlying `List Char` exactly as JavaScript `startsWith` /
`substring` do.  The base58 primitive (`toBase58` / `fromBase58` from
`@bsv/sdk/primitives/utils`) is an external collaborator of the
repository; it is modelled from the spec's collaborator interface
(base58, Bitcoin/IPFS alphabet; decode fails on an illegal alphabet
character or an empty payload).
-/

/-- The base58btc (Bitcoin/IPFS) alphabet, as a list of characters. -/
def b58Alphabet : List Char :=
  "123456789ABCDEFGHJKLMNPQRSTUVWXYZabcdefghijkmnopqrstuvwxyz".data

/-- Digit value `d` (`d < 58`) to its base58 character. -/
def b58Char (d : Nat) : Char := b58Alphabet.getD d '?'

/-- Character to its base58 digit value; `none` when the character is
outside the base58btc alphabet. -/
def b58Index (c : Char) : Option Nat := b58Alphabet.findIdx? (· == c)

/-- Big-endian digits of `n` in base `b`, fuel-driven so that it is
structurally recursive (and hence kernel-evaluable).  `natToDigitsAux b
fuel n acc` prepends the digits of `n` to `acc`, provided `fuel ≥ n`. -/
def natToDigitsAux (b : Nat) : Nat → Nat → List Nat → List Nat
  | 0, _, acc => acc
  | fuel+1, n, acc => if n = 0 then acc else natToDigitsAux b fuel (n / b) (n % b :: acc)

/-- Minimal big-endian base-`b` digit list of `n` (empty for `n = 0`). -/
def natToDigitsBE (b n : Nat) : List Nat := natToDigitsAux b n n []

/-- Modelled from the spec: the external base58 primitive's
`encode(bytes) -> string` (`toBase58` of `@bsv/sdk`, not part of this
repository): one `'1'` per leading zero byte, followed by the base58
digits of the big-endian value of the bytes. -/
def toBase58 (bytes : List Nat) : String :=
  let psz := (bytes.takeWhile (· == 0)).length
  let n := bytes.foldl (fun acc x => acc * 256 + x) 0
  String.mk (List.replicate psz '1' ++ (natToDigitsBE 58 n).map b58Char)

/-- Maps characters to base58 digit values, failing on the first
character outside the alphabet. -/
def mapB58Index : List Char → Option (List Nat)
  | [] => some []
  | c :: cs =>
    match b58Index c, mapB58Index cs with
    | some d, some ds => some (d :: ds)
    | _, _ => none

/-- Modelled from the spec: the external base58 primitive's
`decode(string) -> bytes | DecodeError` (`fromBase58` of `@bsv/sdk`, not
part of this repository): fails on an empty string or an illegal
alphabet character; otherwise one zero byte per leading `'1'`, followed
by the big-endian bytes of the digits' value. -/
def fromBase58 (s : String) : Option (List Nat) :=
  if s.data.isEmpty then none
  else
    match mapB58Index s.data with
    | none => none
    | some ds =>
      let psz := (ds.takeWhile (· == 0)).length
      let n := ds.foldl (fun acc d => acc * 58 + d) 0
      some (List.replicate psz 0 ++ natToDigitsBE 256 n)

/-- `VerificationMethod` as built by `DIDService` (the optional
`publicKeyJwk` field is never set by this code). -/
structure VerificationMethod where
  id : String
  type : String
  controller : String
  publicKeyMultibase : String
deriving DecidableEq, Repr

/-- `DidDocument` as built by `DIDService` (fields it never sets, such
as `service` and `keyAgreement`, are omitted; the four role arrays hold
DID-URL strings, which is all the service ever puts there). -/
structure DidDocument where
  context : List String
  id : String
  verificationMethod : List VerificationMethod
  authentication : List String
  assertionMethod : List String
  capabilityInvocation : List String
  capabilityDelegation : List String
deriving DecidableEq, Repr

/-- The distinct failure kinds of `resolveDidKey`, one per `throw` site
of the source, in the spec's taxonomy names; the framed-length error
carries the expected and actual lengths, as the source's message does. -/
inductive DidError where
  | notDidKeyMethod
  | unsupportedMultibasePrefix
  | multibaseDecodeError
  | unsupportedKeyCodec
  | invalidFramedLength (expected actual : Nat)
  | invalidCompressionMarker
deriving DecidableEq, Repr

/-- `DID_KEY_PREFIX` of `DIDService.ts`. -/
def DID_KEY_PREFIX : String := "did:key:"

/-- `MULTICODEC_SECP256K1_PUB_HEADER` of `DIDService.ts`: `[0xe7, 0x01]`. -/
def MULTICODEC_SECP256K1_PUB_HEADER : List Nat := [0xe7, 0x01]

/-- The document object literal that both `constructDidFromPublicKeyHex`
and `resolveDidKey` build (the two literals in the source are textually
identical). -/
def buildDocument (did publicKeyMultibase : String) : DidDocument :=
  let verificationMethodId := did ++ "#" ++ publicKeyMultibase
  { context := ["https://www.w3.org/ns/did/v1", "https://w3id.org/security/multikey/v1"]
    id := did
    verificationMethod := [{ id := verificationMethodId, type := "Multikey",
                             controller := did, publicKeyMultibase := publicKeyMultibase }]
    authentication := [verificationMethodId]
    assertionMethod := [verificationMethodId]
    capabilityInvocation := [verificationMethodId]
    capabilityDelegation := [verificationMethodId] }

/-- `DIDService.constructDidFromPublicKeyHex`, with the external
`PublicKey.fromString` / `encode(true)` step factored out: this function
receives the compressed public key bytes that `encode(true)` returns and
performs the framing, base58 multibase encoding and document build of
the source. -/
def constructDidFromCompressed (compressedPublicKeyBytes : List Nat) :
    String × DidDocument :=
  let bufferToEncode := MULTICODEC_SECP256K1_PUB_HEADER ++ compressedPublicKeyBytes
  let publicKeyMultibase := "z" ++ toBase58 bufferToEncode
  let did := DID_KEY_PREFIX ++ publicKeyMultibase
  (did, buildDocument did publicKeyMultibase)

/-- `DIDService.resolveDidKey`, check for check in the source's order:
`did:key:` prefix, `z` multibase tag, base58 decode, multicodec header
(`length < 2 ||` header mismatch), framed length `== 35`, compression
marker `∈ {0x02, 0x03}`, then the document rebuild from the original
strings. -/
def resolveDidKey (did : String) : Except DidError DidDocument :=
  if ¬ (DID_KEY_PREFIX.data.isPrefixOf did.data = true) then
    .error .notDidKeyMethod
  else
    let publicKeyMultibase := String.mk (did.data.drop DID_KEY_PREFIX.length)
    if ¬ ("z".data.isPrefixOf publicKeyMultibase.data = true) then
      .error .unsupportedMultibasePrefix
    else
      match fromBase58 (String.mk (publicKeyMultibase.data.drop 1)) with
      | none => .error .multibaseDecodeError
      | some decodedBytes =>
        if decodedBytes.length < MULTICODEC_SECP256K1_PUB_HEADER.length ∨
            decodedBytes.take 2 ≠ MULTICODEC_SECP256K1_PUB_HEADER then
          .error .unsupportedKeyCodec
        else if decodedBytes.length ≠ MULTICODEC_SECP256K1_PUB_HEADER.length + 33 then
          .error (.invalidFramedLength (MULTICODEC_SECP256K1_PUB_HEADER.length + 33)
                    decodedBytes.length)
        else
          let pubKeyBytesOnly := decodedBytes.drop MULTICODEC_SECP256K1_PUB_HEADER.length
          if pubKeyBytesOnly.headD 0 ≠ 0x02 ∧ pubKeyBytesOnly.headD 0 ≠ 0x03 then
            .error .invalidCompressionMarker
          else
            .ok (buildDocument did publicKeyMultibase)

/-- Equality of resolution results is decidable (needed to evaluate
`resolveDidKey` on concrete inputs). -/
instance {ε α : Type} [DecidableEq ε] [DecidableEq α] : DecidableEq (Except ε α) := fun
  | .error a, .error b =>
    if h : a = b then .isTrue (by rw [h]) else .isFalse (by simp [h])
  | .error _, .ok _ => .isFalse (by simp)
  | .ok _, .error _ => .isFalse (by simp)
  | .ok a, .ok b =>
    if h : a = b then .isTrue (by rw [h]) else .isFalse (by simp [h])

/-- The spec's §8 scenario input: public key byte `0x02` followed by 32
deterministic filler bytes (the repository mock's filler `(i * 7) % 256`
for positions `1..32`). -/
def scenarioKey : List Nat :=
  0x02 :: (List.range 32).map (fun i => ((i + 1) * 7) % 256)

/-- The spec's §8 regex `^did:key:z[1-9A-HJ-NP-Za-km-z]+$` as a Boolean
predicate: the literal prefix, then at least one character, all from the
base58btc alphabet. -/
def matchesDidKeyRegex (d : String) : Bool :=
  "did:key:z".data.isPrefixOf d.data
    && !(d.data.drop 9).isEmpty
    && (d.data.drop 9).all (fun c => b58Alphabet.contains c)

/-- Modelled from the spec: the shape of the bytes returned by the
external `PublicKey` parser's `encode(true)` (compressed secp256k1
point serialization, `@bsv/sdk`, not part of this repository) for every
accepted public key, including one given in uncompressed 65-byte form:
exactly 33 bytes, the first `0x02` or `0x03`. -/
def IsCompressedSecp256k1 (k : List Nat) : Prop :=
  k.length = 33 ∧ (k.headD 0 = 0x02 ∨ k.headD 0 = 0x03) ∧ ∀ x ∈ k, x < 256

instance (k : List Nat) : Decidable (IsCompressedSecp256k1 k) := by
  unfold IsCompressedSecp256k1
  infer_instance

example : b58Index (b58Char 0) = some 0 := by decide
example : (toBase58 [0, 0, 1]).data = ['1', '1', '2'] := by decide
example : fromBase58 (toBase58 [0xe7, 0x01, 0x02, 0xff]) = some [0xe7, 0x01, 0x02, 0xff] := by
  decide

/-! ### Base-conversion lemmas -/

lemma natToDigitsAux_zero (b : Nat) : ∀ fuel acc, natToDigitsAux b fuel 0 acc = acc
  | 0, _ => rfl
  | _+1, _ => by simp [natToDigitsAux]

lemma natToDigitsAux_append (b : Nat) :
    ∀ fuel n acc, natToDigitsAux b fuel n acc = natToDigitsAux b fuel n [] ++ acc
  | 0, _, _ => rfl
  | fuel+1, n, acc => by
    by_cases h : n = 0
    · simp [natToDigitsAux, h]
    · rw [natToDigitsAux, natToDigitsAux, if_neg h, if_neg h,
        natToDigitsAux_append b fuel (n / b) (n % b :: acc),
        natToDigitsAux_append b fuel (n / b) [n % b]]
      simp

lemma natToDigitsAux_fuel (b : Nat) (hb : 2 ≤ b) :
    ∀ n fuel, n ≤ fuel → natToDigitsAux b fuel n [] = natToDigitsBE b n := by
  intro n
  induction n using Nat.strong_induction_on with
  | _ n ih =>
    intro fuel hfuel
    by_cases h0 : n = 0
    · subst h0
      rw [natToDigitsAux_zero]
      rfl
    · obtain ⟨f, rfl⟩ : ∃ f, fuel = f + 1 := ⟨fuel - 1, by omega⟩
      obtain ⟨m, hm⟩ : ∃ m, n = m + 1 := ⟨n - 1, by omega⟩
      have hdiv : n / b < n := Nat.div_lt_self (by omega) (by omega)
      have hrhs : natToDigitsBE b n = natToDigitsAux b m (n / b) [n % b] := by
        rw [natToDigitsBE]
        conv_lhs => rw [hm]
        rw [natToDigitsAux, if_neg (Nat.succ_ne_zero m), ← hm]
      rw [natToDigitsAux, if_neg h0, natToDigitsAux_append,
        ih (n / b) hdiv f (by omega), hrhs, natToDigitsAux_append,
        ih (n / b) hdiv m (by omega)]

lemma natToDigitsBE_peel (b n : Nat) (hb : 2 ≤ b) (hn : n ≠ 0) :
    natToDigitsBE b n = natToDigitsBE b (n / b) ++ [n % b] := by
  obtain ⟨m, hm⟩ : ∃ m, n = m + 1 := ⟨n - 1, by omega⟩
  have hdiv : n / b < n := Nat.div_lt_self (by omega) (by omega)
  rw [natToDigitsBE]
  conv_lhs => rw [hm]
  rw [natToDigitsAux, if_neg (Nat.succ_ne_zero m), ← hm,
    natToDigitsAux_append, natToDigitsAux_fuel b hb (n / b) m (by omega)]

lemma natToDigitsBE_foldl (b : Nat) (hb : 2 ≤ b) :
    ∀ n, (natToDigitsBE b n).foldl (fun acc d => acc * b + d) 0 = n := by
  intro n
  induction n using Nat.strong_induction_on with
  | _ n ih =>
    by_cases h0 : n = 0
    · subst h0; rfl
    · have hdiv : n / b < n := Nat.div_lt_self (by omega) (by omega)
      rw [natToDigitsBE_peel b n hb h0, List.foldl_append, ih (n / b) hdiv]
      simp only [List.foldl_cons, List.foldl_nil]
      have h1 := Nat.div_add_mod n b
      have h2 : n / b * b = b * (n / b) := Nat.mul_comm _ _
      omega

lemma natToDigitsBE_lt (b : Nat) (hb : 2 ≤ b) :
    ∀ n, ∀ d ∈ natToDigitsBE b n, d < b := by
  intro n
  induction n using Nat.strong_induction_on with
  | _ n ih =>
    intro d hd
    by_cases h0 : n = 0
    · subst h0; simp [natToDigitsBE, natToDigitsAux] at hd
    · have hdiv : n / b < n := Nat.div_lt_self (by omega) (by omega)
      rw [natToDigitsBE_peel b n hb h0] at hd
      rcases List.mem_append.mp hd with h | h
      · exact ih (n / b) hdiv d h
      · simp at h
        subst h
        exact Nat.mod_lt n (by omega)

lemma natToDigitsBE_cons (b : Nat) (hb : 2 ≤ b) :
    ∀ n, n ≠ 0 → ∃ d ds, natToDigitsBE b n = d :: ds ∧ d ≠ 0 := by
  intro n
  induction n using Nat.strong_induction_on with
  | _ n ih =>
    intro h0
    have hdiv : n / b < n := Nat.div_lt_self (by omega) (by omega)
    by_cases hsmall : n < b
    · have hq : n / b = 0 := Nat.div_eq_of_lt hsmall
      have hr : n % b = n := Nat.mod_eq_of_lt hsmall
      refine ⟨n, [], ?_, h0⟩
      rw [natToDigitsBE_peel b n hb h0, hq, hr]
      rfl
    · have hq : n / b ≠ 0 := by
        have : b ≤ n := by omega
        have := Nat.one_le_div_iff (by omega : 0 < b) |>.mpr this
        omega
      obtain ⟨d, ds, hds, hd0⟩ := ih (n / b) hdiv hq
      exact ⟨d, ds ++ [n % b], by rw [natToDigitsBE_peel b n hb h0, hds]; rfl, hd0⟩

lemma natToDigitsBE_of_foldl (b : Nat) (hb : 2 ≤ b) (l : List Nat) :
    l ≠ [] → l.headD 0 ≠ 0 → (∀ x ∈ l, x < b) →
    natToDigitsBE b (l.foldl (fun acc x => acc * b + x) 0) = l := by
  induction l using List.reverseRecOn with
  | nil => intro h; exact absurd rfl h
  | append_singleton xs d ih =>
    intro _ hhd hlt
    have hd : d < b := hlt d (by simp)
    rcases xs with _ | ⟨y, ys⟩
    · have hd0 : d ≠ 0 := by simpa using hhd
      simp only [List.nil_append, List.foldl_cons, List.foldl_nil, Nat.zero_mul, Nat.zero_add]
      rw [natToDigitsBE_peel b d hb hd0, Nat.div_eq_of_lt hd, Nat.mod_eq_of_lt hd]
      rfl
    · have hxs : natToDigitsBE b ((y :: ys).foldl (fun acc x => acc * b + x) 0) = y :: ys := by
        refine ih (by simp) (by simpa using hhd) ?_
        intro x hx
        exact hlt x (List.mem_append_left _ hx)
      set v := (y :: ys).foldl (fun acc x => acc * b + x) 0 with hv
      have hv0 : v ≠ 0 := by
        intro h
        rw [h] at hxs
        exact absurd hxs.symm (by simp [natToDigitsBE, natToDigitsAux])
      have hfull : ((y :: ys) ++ [d]).foldl (fun acc x => acc * b + x) 0 = v * b + d := by
        rw [List.foldl_append, ← hv]
        rfl
      have hvbd : v * b + d ≠ 0 := by
        intro h
        have h1 : v * b = 0 := by omega
        rcases Nat.mul_eq_zero.mp h1 with h2 | h2
        · exact hv0 h2
        · omega
      rw [hfull, natToDigitsBE_peel b (v * b + d) hb hvbd]
      have hdivv : (v * b + d) / b = v := by
        rw [Nat.mul_comm v b, Nat.mul_add_div (by omega : b > 0), Nat.div_eq_of_lt hd]
        omega
      have hmodv : (v * b + d) % b = d := by
        rw [Nat.mul_comm v b, Nat.mul_add_mod, Nat.mod_eq_of_lt hd]
      rw [hdivv, hmodv, hxs]

/-! ### Base58 round-trip -/

lemma b58Index_b58Char : ∀ d, d < 58 → b58Index (b58Char d) = some d := by decide

lemma b58Char_ne_one : ∀ d, d < 58 → d ≠ 0 → b58Char d ≠ '1' := by decide

lemma mapB58Index_map (ds : List Nat) (h : ∀ d ∈ ds, d < 58) :
    mapB58Index (ds.map b58Char) = some ds := by
  induction ds with
  | nil => rfl
  | cons d ds ih =>
    rw [List.map_cons, mapB58Index, b58Index_b58Char d (h d (by simp)),
      ih (fun x hx => h x (by simp [hx]))]

lemma mapB58Index_none (l : List Char) (c : Char) (hc : c ∈ l) (h : b58Index c = none) :
    mapB58Index l = none := by
  induction l with
  | nil => simp at hc
  | cons a as ih =>
    rcases List.mem_cons.mp hc with rfl | hmem
    · rw [mapB58Index, h]
    · rw [mapB58Index, ih hmem]
      rcases b58Index a with _ | _ <;> rfl

lemma fromBase58_toBase58 (l : List Nat) (hne : l ≠ []) (hhd : l.headD 0 ≠ 0)
    (hlt : ∀ x ∈ l, x < 256) : fromBase58 (toBase58 l) = some l := by
  obtain ⟨x, t, rfl⟩ := List.exists_cons_of_ne_nil hne
  have hx : x ≠ 0 := by simpa using hhd
  set n := (x :: t).foldl (fun acc y => acc * 256 + y) 0 with hn
  have hdig : natToDigitsBE 256 n = x :: t :=
    natToDigitsBE_of_foldl 256 (by omega) (x :: t) hne hhd hlt
  have hn0 : n ≠ 0 := by
    intro h
    rw [h] at hdig
    exact absurd hdig.symm (by simp [natToDigitsBE, natToDigitsAux])
  have htw : (x :: t).takeWhile (fun y => y == 0) = [] := by
    rw [List.takeWhile_cons, if_neg]
    simp [hx]
  have henc : toBase58 (x :: t) = String.mk ((natToDigitsBE 58 n).map b58Char) := by
    rw [toBase58]
    simp only [htw, List.length_nil, List.replicate_zero, List.nil_append, ← hn]
  obtain ⟨d, ds, hds, hd0⟩ := natToDigitsBE_cons 58 (by omega) n hn0
  have hdlt : ∀ e ∈ natToDigitsBE 58 n, e < 58 := natToDigitsBE_lt 58 (by omega) n
  rw [henc, fromBase58]
  rw [if_neg (by simp [hds])]
  rw [mapB58Index_map _ hdlt]
  simp only
  have htw58 : (natToDigitsBE 58 n).takeWhile (fun e => e == 0) = [] := by
    rw [hds, List.takeWhile_cons, if_neg]
    simp [hd0]
  rw [htw58]
  simp only [List.length_nil, List.replicate_zero, List.nil_append,
    natToDigitsBE_foldl 58 (by omega) n, hdig]

/-! ### String-level unfolding of `resolveDidKey` -/

lemma isPrefixOf_append (p t : List Char) : p.isPrefixOf (p ++ t) = true :=
  List.isPrefixOf_iff_prefix.mpr (List.prefix_append p t)

lemma string_didkeyz_data (s : String) :
    ("did:key:z" ++ s).data = "did:key:".data ++ ('z' :: s.data) := by
  rw [String.data_append]
  have h9 : "did:key:z".data = "did:key:".data ++ ['z'] := by decide
  rw [h9, List.append_assoc]
  rfl

/-- Unfolds `resolveDidKey` on a string of the shape `"did:key:z" ++ s`:
the two prefix checks pass and the remaining validation chain runs on
`fromBase58 s`. -/
lemma resolveDidKey_decode (s : String) :
    resolveDidKey ("did:key:z" ++ s) =
      match fromBase58 s with
      | none => Except.error DidError.multibaseDecodeError
      | some decodedBytes =>
        if decodedBytes.length < MULTICODEC_SECP256K1_PUB_HEADER.length ∨
            decodedBytes.take 2 ≠ MULTICODEC_SECP256K1_PUB_HEADER then
          Except.error DidError.unsupportedKeyCodec
        else if decodedBytes.length ≠ MULTICODEC_SECP256K1_PUB_HEADER.length + 33 then
          Except.error (DidError.invalidFramedLength (MULTICODEC_SECP256K1_PUB_HEADER.length + 33)
            decodedBytes.length)
        else if (decodedBytes.drop MULTICODEC_SECP256K1_PUB_HEADER.length).headD 0 ≠ 0x02 ∧
            (decodedBytes.drop MULTICODEC_SECP256K1_PUB_HEADER.length).headD 0 ≠ 0x03 then
          Except.error DidError.invalidCompressionMarker
        else
          Except.ok (buildDocument ("did:key:z" ++ s) ("z" ++ s)) := by
  obtain ⟨l⟩ := s
  have hdata : ("did:key:z" ++ String.mk l).data = "did:key:".data ++ ('z' :: l) :=
    string_didkeyz_data ⟨l⟩
  have h1 : DID_KEY_PREFIX.data.isPrefixOf ("did:key:z" ++ String.mk l).data = true := by
    rw [hdata]
    exact isPrefixOf_append _ _
  have h2 : ("did:key:z" ++ String.mk l).data.drop DID_KEY_PREFIX.length = 'z' :: l := by
    rw [hdata]
    exact List.drop_left' (by decide)
  have h3 : "z".data.isPrefixOf ('z' :: l) = true := by
    have hz : ('z' :: l) = ['z'] ++ l := rfl
    rw [hz]
    exact isPrefixOf_append _ _
  simp only [resolveDidKey, h1, h2, h3, not_true_eq_false, if_false, List.drop_succ_cons,
    List.drop_zero]
  cases hfb : fromBase58 (String.mk l) <;> rfl

/-- When the base58 decode fails, `resolveDidKey` fails with the
multibase-decode error. -/
lemma resolve_decode_none (s : String) (h : fromBase58 s = none) :
    resolveDidKey ("did:key:z" ++ s) = .error .multibaseDecodeError := by
  rw [resolveDidKey_decode, h]

/-- When the base58 decode yields `bs`, `resolveDidKey` runs the codec,
length and marker checks on `bs`, in that order. -/
lemma resolve_decode_some (s : String) (bs : List Nat) (h : fromBase58 s = some bs) :
    resolveDidKey ("did:key:z" ++ s) =
      if bs.length < 2 ∨ bs.take 2 ≠ [0xe7, 0x01] then
        .error .unsupportedKeyCodec
      else if bs.length ≠ 35 then
        .error (.invalidFramedLength 35 bs.length)
      else if (bs.drop 2).headD 0 ≠ 0x02 ∧ (bs.drop 2).headD 0 ≠ 0x03 then
        .error .invalidCompressionMarker
      else
        .ok (buildDocument ("did:key:z" ++ s) ("z" ++ s)) := by
  rw [resolveDidKey_decode, h]
  rfl

lemma string_assoc_z (t : String) :
    DID_KEY_PREFIX ++ ("z" ++ t) = "did:key:z" ++ t := by
  obtain ⟨m⟩ := t
  rfl

/-- Round-trip core: resolving the DID constructed from a 33-byte
compressed key (leading byte `0x02` or `0x03`) succeeds and returns the
constructed document. -/
lemma resolve_construct (k : List Nat) (h33 : k.length = 33)
    (hhd : k.headD 0 = 0x02 ∨ k.headD 0 = 0x03) (hlt : ∀ x ∈ k, x < 256) :
    resolveDidKey (constructDidFromCompressed k).1 =
      .ok (constructDidFromCompressed k).2 := by
  have hne : MULTICODEC_SECP256K1_PUB_HEADER ++ k ≠ [] := by
    simp [MULTICODEC_SECP256K1_PUB_HEADER]
  have hhd' : (MULTICODEC_SECP256K1_PUB_HEADER ++ k).headD 0 ≠ 0 := by
    simp [MULTICODEC_SECP256K1_PUB_HEADER]
  have hlt' : ∀ x ∈ MULTICODEC_SECP256K1_PUB_HEADER ++ k, x < 256 := by
    intro x hx
    rcases List.mem_append.mp hx with h | h
    · simp [MULTICODEC_SECP256K1_PUB_HEADER] at h
      omega
    · exact hlt x h
  have hfb := fromBase58_toBase58 _ hne hhd' hlt'
  have hlen : (MULTICODEC_SECP256K1_PUB_HEADER ++ k).length = 35 := by
    simp [MULTICODEC_SECP256K1_PUB_HEADER, h33]
  have htake : (MULTICODEC_SECP256K1_PUB_HEADER ++ k).take 2 = [0xe7, 0x01] := by
    simp [MULTICODEC_SECP256K1_PUB_HEADER]
  have hdrop : (MULTICODEC_SECP256K1_PUB_HEADER ++ k).drop 2 = k := by
    simp [MULTICODEC_SECP256K1_PUB_HEADER]
  simp only [constructDidFromCompressed]
  rw [string_assoc_z, resolve_decode_some _ _ hfb]
  rw [if_neg (by rw [hlen, htake]; decide)]
  rw [if_neg (by rw [hlen]; decide)]
  rw [if_neg (by
    rw [hdrop]
    rcases hhd with h | h
    · exact fun hc => hc.1 h
    · exact fun hc => hc.2 h)]

/-! ### Claims -/

/-- C1: for every valid 33-byte compressed secp256k1 public key `k`
(first byte `0x02` or `0x03`), resolving the DID produced by construct
returns the identical DID document, bit for bit, including the four
role arrays: `resolve (construct k).did = ok (construct k).document`. -/
theorem claim1_roundtrip (k : List Nat) (h33 : k.length = 33)
    (hhd : k.headD 0 = 0x02 ∨ k.headD 0 = 0x03) (hlt : ∀ x ∈ k, x < 256) :
    resolveDidKey (constructDidFromCompressed k).1 =
      .ok (constructDidFromCompressed k).2 :=
  resolve_construct k h33 hhd hlt

theorem claim1_roundtrip_witness :
    ((0x02 :: List.replicate 32 0).length = 33 ∧
      ((0x02 :: List.replicate 32 0).headD 0 = 0x02 ∨
        (0x02 :: List.replicate 32 0).headD 0 = 0x03) ∧
      (∀ x ∈ (0x02 :: List.replicate 32 (0 : Nat)), x < 256)) ∧
    resolveDidKey (constructDidFromCompressed (0x02 :: List.replicate 32 0)).1 =
      .ok (constructDidFromCompressed (0x02 :: List.replicate 32 0)).2 :=
  ⟨⟨by decide, by decide, by decide⟩,
    claim1_roundtrip _ (by decide) (by decide) (by decide)⟩

/-- C2 counterexample: a base58 payload of 34 bytes whose leading two
bytes are the Ed25519 header `[0xED, 0x01]` does not fail with the
framed-length error: the codec check runs first, so `resolveDidKey`
fails with the unsupported-codec error instead. -/
theorem claim2_counterexample :
    fromBase58 "6MkeTG3bFFSLYVU7VqhgZxqr6YzpaGrQtFMh1uvqGy1vDnP" =
      some (0xED :: 0x01 :: List.replicate 32 0) ∧
    (0xED :: 0x01 :: List.replicate 32 (0 : Nat)).length = 34 ∧
    resolveDidKey "did:key:z6MkeTG3bFFSLYVU7VqhgZxqr6YzpaGrQtFMh1uvqGy1vDnP" =
      .error .unsupportedKeyCodec ∧
    resolveDidKey "did:key:z6MkeTG3bFFSLYVU7VqhgZxqr6YzpaGrQtFMh1uvqGy1vDnP" ≠
      .error (.invalidFramedLength 35 34) := by
  refine ⟨by decide, by decide, ?_, ?_⟩ <;> decide

/-- C2 amended: the multicodec-header check runs before the
framed-length check, so a base58-decoded payload of 34 or 36 bytes fails
with `InvalidFramedLength` (carrying expected 35 and the actual length)
exactly when its leading two bytes are `[0xE7, 0x01]`, and with
`UnsupportedKeyCodec` otherwise. -/
theorem claim2_amended_codec_before_length (s : String) (bs : List Nat)
    (h : fromBase58 s = some bs) (hlen : bs.length = 34 ∨ bs.length = 36) :
    resolveDidKey ("did:key:z" ++ s) =
      if bs.take 2 = [0xe7, 0x01] then
        .error (.invalidFramedLength 35 bs.length)
      else
        .error .unsupportedKeyCodec := by
  rw [resolve_decode_some _ _ h]
  by_cases hc : bs.take 2 = [0xe7, 0x01]
  · rw [if_pos hc, if_neg (by simp [hc]; omega), if_pos (by omega)]
  · rw [if_neg hc, if_pos (Or.inr hc)]

theorem claim2_amended_witness :
    resolveDidKey ("did:key:z" ++ "6DtMnkmBcbzt3s7zq46m3HWh4Xtz1rS9Dp8pnkSnP46h9if") =
      .error (.invalidFramedLength 35 34) := by
  have h := claim2_amended_codec_before_length "6DtMnkmBcbzt3s7zq46m3HWh4Xtz1rS9Dp8pnkSnP46h9if"
    (0xe7 :: 0x01 :: List.replicate 32 0) (by decide) (Or.inl (by decide))
  rw [if_pos (by decide)] at h
  exact h

/-- C3: every DID of the form `"did:key:z" ++ s` where `s` fails base58
decoding — `s` empty, or `s` containing a character outside the base58
alphabet — resolves to the multibase-decode error and no other kind. -/
theorem claim3_multibase_decode_error (s : String)
    (h : s.data = [] ∨ ∃ c ∈ s.data, b58Index c = none) :
    resolveDidKey ("did:key:z" ++ s) = .error .multibaseDecodeError := by
  apply resolve_decode_none
  rcases h with h | ⟨c, hc, hnone⟩
  · simp [fromBase58, h]
  · have hmap := mapB58Index_none s.data c hc hnone
    by_cases he : s.data.isEmpty <;> simp [fromBase58, he, hmap]

theorem claim3_multibase_decode_error_witness :
    resolveDidKey ("did:key:z" ++ "InvalidKey!") = .error .multibaseDecodeError :=
  claim3_multibase_decode_error "InvalidKey!" (Or.inr ⟨'!', by decide, by decide⟩)

/-- C4: a string not starting with `did:key:` fails with the
not-did-key-method error regardless of what follows; and a string
`did:key:` ++ suffix whose suffix does not start with `z` fails with the
unsupported-multibase-prefix error for every such suffix — even an
undecodable one, so base58 decoding is never reached. -/
theorem claim4_prefix_precedence :
    (∀ did : String, DID_KEY_PREFIX.data.isPrefixOf did.data = false →
      resolveDidKey did = .error .notDidKeyMethod) ∧
    (∀ s : String, "z".data.isPrefixOf s.data = false →
      resolveDidKey (DID_KEY_PREFIX ++ s) = .error .unsupportedMultibasePrefix) := by
  constructor
  · intro did h
    simp only [resolveDidKey, h]
    rfl
  · intro s h
    obtain ⟨l⟩ := s
    have hdata : (DID_KEY_PREFIX ++ String.mk l).data = "did:key:".data ++ l := rfl
    have h1 : DID_KEY_PREFIX.data.isPrefixOf (DID_KEY_PREFIX ++ String.mk l).data = true := by
      rw [hdata]
      exact isPrefixOf_append _ _
    have h2 : (DID_KEY_PREFIX ++ String.mk l).data.drop DID_KEY_PREFIX.length = l := by
      rw [hdata]
      exact List.drop_left' (by decide)
    simp only [resolveDidKey, h1, h2, h, not_true_eq_false, if_false]
    rfl

theorem claim4_prefix_precedence_witness :
    resolveDidKey "did:key2:zABC" = .error .notDidKeyMethod ∧
    resolveDidKey (DID_KEY_PREFIX ++ "abc") = .error .unsupportedMultibasePrefix :=
  ⟨claim4_prefix_precedence.1 "did:key2:zABC" (by decide),
    claim4_prefix_precedence.2 "abc" (by decide)⟩

/-- C5: every base58-decoded payload whose first two bytes are not
`[0xE7, 0x01]` — for instance one carrying the Ed25519 multicodec
header — makes `resolveDidKey` fail with the unsupported-codec error. -/
theorem claim5_unsupported_codec (s : String) (bs : List Nat)
    (h : fromBase58 s = some bs) (hhdr : bs.take 2 ≠ [0xe7, 0x01]) :
    resolveDidKey ("did:key:z" ++ s) = .error .unsupportedKeyCodec := by
  rw [resolve_decode_some _ _ h, if_pos (Or.inr hhdr)]

theorem claim5_unsupported_codec_witness :
    resolveDidKey ("did:key:z" ++ "6MkhaXgBZDvotDkL5257faizRxWRgSSzGvY") =
      .error .unsupportedKeyCodec :=
  claim5_unsupported_codec _
    [3, 4, 74, 79, 160, 196, 197, 121, 85, 175, 136, 179, 157, 161, 208, 62,
      61, 217, 71, 219, 109, 188, 159, 70, 226, 21]
    (by decide) (by decide)

/-- C6: a 35-byte decoded payload with the correct header whose third
byte is neither `0x02` nor `0x03` fails with the compression-marker
error. -/
theorem claim6_invalid_compression_marker (s : String) (bs : List Nat)
    (h : fromBase58 s = some bs) (hlen : bs.length = 35)
    (hhdr : bs.take 2 = [0xe7, 0x01])
    (h2 : (bs.drop 2).headD 0 ≠ 0x02) (h3 : (bs.drop 2).headD 0 ≠ 0x03) :
    resolveDidKey ("did:key:z" ++ s) = .error .invalidCompressionMarker := by
  rw [resolve_decode_some _ _ h, if_neg (by simp [hhdr]; omega), if_neg (by omega),
    if_pos ⟨h2, h3⟩]

theorem claim6_invalid_compression_marker_witness :
    resolveDidKey ("did:key:z" ++ "Q3shwsRVqJUsVqAxXRp6HnbEbUaXejmGGPKus8a6k2PCHHqq") =
      .error .invalidCompressionMarker :=
  claim6_invalid_compression_marker _ (0xe7 :: 0x01 :: 0x04 :: List.replicate 32 0)
    (by decide) (by decide) (by decide) (by decide) (by decide)

/-- C7: whenever `resolveDidKey` succeeds, the returned document is
rebuilt verbatim from the input string: its `id` is the input `did`
itself, the single verification method's `id` is `did ++ "#" ++ m`, its
`controller` is `did` and its `publicKeyMultibase` is `m`, where `m` is
the substring of `did` after `did:key:`, with no normalization. -/
theorem claim7_verbatim_reconstruction (d : String) (doc : DidDocument)
    (h : resolveDidKey d = .ok doc) :
    doc.id = d ∧
    doc.verificationMethod.map VerificationMethod.id =
      [d ++ "#" ++ String.mk (d.data.drop DID_KEY_PREFIX.length)] ∧
    doc.verificationMethod.map VerificationMethod.controller = [d] ∧
    doc.verificationMethod.map VerificationMethod.publicKeyMultibase =
      [String.mk (d.data.drop DID_KEY_PREFIX.length)] := by
  simp only [resolveDidKey] at h
  split at h
  · exact absurd h (by simp)
  · split at h
    · exact absurd h (by simp)
    · split at h
      · exact absurd h (by simp)
      · split at h
        · exact absurd h (by simp)
        · split at h
          · exact absurd h (by simp)
          · split at h
            · exact absurd h (by simp)
            · have hdoc := Except.ok.inj h
              subst hdoc
              simp [buildDocument]

theorem claim7_verbatim_reconstruction_witness :
    (constructDidFromCompressed scenarioKey).2.id =
      (constructDidFromCompressed scenarioKey).1 ∧
    (constructDidFromCompressed scenarioKey).2.verificationMethod.map VerificationMethod.id =
      [(constructDidFromCompressed scenarioKey).1 ++ "#" ++
        String.mk ((constructDidFromCompressed scenarioKey).1.data.drop DID_KEY_PREFIX.length)] ∧
    (constructDidFromCompressed scenarioKey).2.verificationMethod.map
        VerificationMethod.controller = [(constructDidFromCompressed scenarioKey).1] ∧
    (constructDidFromCompressed scenarioKey).2.verificationMethod.map
        VerificationMethod.publicKeyMultibase =
      [String.mk ((constructDidFromCompressed scenarioKey).1.data.drop DID_KEY_PREFIX.length)] :=
  claim7_verbatim_reconstruction _ _ (by decide)

/-- C8: on the key `0x02` followed by 32 deterministic filler bytes,
construct yields a DID matching the regex of spec §8, a document with a
single verification method of type `Multikey`, and all four role arrays
equal to `[verificationMethod[0].id]`. -/
theorem claim8_construct_shape :
    matchesDidKeyRegex (constructDidFromCompressed scenarioKey).1 = true ∧
    (constructDidFromCompressed scenarioKey).2.verificationMethod.map VerificationMethod.type =
      ["Multikey"] ∧
    (constructDidFromCompressed scenarioKey).2.authentication =
      (constructDidFromCompressed scenarioKey).2.verificationMethod.map VerificationMethod.id ∧
    (constructDidFromCompressed scenarioKey).2.assertionMethod =
      (constructDidFromCompressed scenarioKey).2.authentication ∧
    (constructDidFromCompressed scenarioKey).2.capabilityInvocation =
      (constructDidFromCompressed scenarioKey).2.authentication ∧
    (constructDidFromCompressed scenarioKey).2.capabilityDelegation =
      (constructDidFromCompressed scenarioKey).2.authentication := by
  decide

/-- C9: a 35-byte decoded payload with the correct header and a third
byte of `0x02` or `0x03` always resolves successfully — the remaining 32
x-coordinate bytes are never inspected, so even an all-zero x-coordinate
is accepted (no curve-membership validation). -/
theorem claim9_no_curve_validation (s : String) (bs : List Nat)
    (h : fromBase58 s = some bs) (hlen : bs.length = 35)
    (hhdr : bs.take 2 = [0xe7, 0x01])
    (hmk : (bs.drop 2).headD 0 = 0x02 ∨ (bs.drop 2).headD 0 = 0x03) :
    resolveDidKey ("did:key:z" ++ s) =
      .ok (buildDocument ("did:key:z" ++ s) ("z" ++ s)) := by
  rw [resolve_decode_some _ _ h, if_neg (by simp [hhdr]; omega), if_neg (by omega),
    if_neg (by
      rcases hmk with h' | h'
      · exact fun hc => hc.1 h'
      · exact fun hc => hc.2 h')]

theorem claim9_no_curve_validation_witness :
    resolveDidKey ("did:key:z" ++ "Q3shMQnkqiyfujhRPGFFqSEeD2yV9kUcmyBiu2fT2BXfFPMH") =
      .ok (buildDocument ("did:key:z" ++ "Q3shMQnkqiyfujhRPGFFqSEeD2yV9kUcmyBiu2fT2BXfFPMH")
        ("z" ++ "Q3shMQnkqiyfujhRPGFFqSEeD2yV9kUcmyBiu2fT2BXfFPMH")) :=
  claim9_no_curve_validation _ (0xe7 :: 0x01 :: 0x02 :: List.replicate 32 0)
    (by decide) (by decide) (by decide) (Or.inl (by decide))

/-- C10: for every key whose compressed encoding has the shape the
external parser guarantees (33 bytes, leading `0x02`/`0x03`), the framed
payload construct base58-encodes is exactly 35 bytes — the header
`[0xE7, 0x01]` followed by the 33 key bytes — and the produced DID
passes all of resolve's structural checks. -/
theorem claim10_construct_valid_frame (k : List Nat) (h : IsCompressedSecp256k1 k) :
    (MULTICODEC_SECP256K1_PUB_HEADER ++ k).length = 35 ∧
    (MULTICODEC_SECP256K1_PUB_HEADER ++ k).take 2 = MULTICODEC_SECP256K1_PUB_HEADER ∧
    (MULTICODEC_SECP256K1_PUB_HEADER ++ k).drop 2 = k ∧
    ∃ doc, resolveDidKey (constructDidFromCompressed k).1 = Except.ok doc := by
  obtain ⟨h33, hhd, hlt⟩ := h
  exact ⟨by simp [MULTICODEC_SECP256K1_PUB_HEADER, h33], rfl, rfl,
    ⟨_, resolve_construct k h33 hhd hlt⟩⟩

theorem claim10_construct_valid_frame_witness :
    IsCompressedSecp256k1 (0x03 :: List.replicate 32 0) ∧
    ((MULTICODEC_SECP256K1_PUB_HEADER ++ (0x03 :: List.replicate 32 0)).length = 35 ∧
      (MULTICODEC_SECP256K1_PUB_HEADER ++ (0x03 :: List.replicate 32 0)).take 2 =
        MULTICODEC_SECP256K1_PUB_HEADER ∧
      (MULTICODEC_SECP256K1_PUB_HEADER ++ (0x03 :: List.replicate 32 0)).drop 2 =
        0x03 :: List.replicate 32 0 ∧
      ∃ doc, resolveDidKey (constructDidFromCompressed (0x03 :: List.replicate 32 0)).1 =
        Except.ok doc) :=
  ⟨by decide, claim10_construct_valid_frame _ (by decide)⟩
